import Mathlib

/-!
# Verification of the neo4j-transfer graph-copy engine

Shallow embedding of `src/neo4j_transfer/__init__.py` and
`src/neo4j_transfer/models.py`.

Modelling conventions:
* Property values are modelled as strings (the only property comparison any
  claim depends on is the ISO-8601 string equality used by `undo`).
* `datetime` values are modelled by their ISO-8601 rendering, so
  `timestamp.isoformat()` is the identity on the model.
* A Neo4j session is modelled at its interface boundary: the source database
  is a list of rows, and the driver's paginated reply to a query is computed
  by `fetchNodes` / `fetchRels` (`SKIP`/`LIMIT` over the filtered list).  For
  the relationship copier the session is additionally abstracted as a page
  function (`RelSession`), since the Python code consumes whatever the driver
  returns.
* Fallible Python code (raised exceptions) returns `Except String _`; the
  unbounded `while True:` pagination loops take a fuel argument and return
  `Option _` (`none` = fuel exhausted; the top-level wrappers supply fuel
  that provably suffices).
-/

/-- A source node row as returned by the paginated node fetch:
`elementId(n) AS eid, labels(n) AS labels, properties(n) AS props`. -/
structure NodeRow where
  eid : String
  labels : List String
  props : List (String × String)
deriving DecidableEq, Repr

/-- A source relationship row as returned by the paginated relationship fetch:
`type(r) AS type, elementId(a) AS start, elementId(b) AS end,
properties(r) AS props`.  (`end` is a Lean keyword, hence `end_`.) -/
structure RelRow where
  type : String
  start : String
  end_ : String
  props : List (String × String)
deriving DecidableEq, Repr

/-- A relationship stored in the target database
(`CREATE (a)-[r:TYPE]->(b) SET r = row.props`). -/
structure TgtRel where
  rel_id : String
  type : String
  start : String
  end_ : String
  props : List (String × String)
deriving DecidableEq, Repr

/-- The descriptor `_batch_create_relationships` collects per created
relationship: `rel_id, type, start_node, end_node`. -/
structure RelDescriptor where
  rel_id : String
  type : String
  start_node : String
  end_node : String
deriving DecidableEq, Repr

/-- The target database: its nodes, its relationships, and a counter from
which fresh element ids are generated. -/
structure DB where
  nodes : List NodeRow
  rels : List TgtRel
  nextId : Nat
deriving DecidableEq, Repr

/-- A fresh target-side element id (`elementId` of a newly created record). -/
def freshId (db : DB) : String := "t" ++ toString db.nextId

/-- The Identifier Map `id_map : Dict[str, str]` from source element ids to
target element ids, as an association list in Python dict order. -/
abbrev IdMap := List (String × String)

/-- Python `dict.get`: the value at the key, or `None`. -/
def dictGet (m : IdMap) (k : String) : Option String :=
  (m.find? (fun p => p.1 = k)).map (fun p => p.2)

/-- Python dict key-membership. -/
def keyMem (m : IdMap) (k : String) : Bool :=
  m.any (fun p => p.1 = k)

/-- Python `d[k] = v`: replace in place if the key exists, else append. -/
def dictInsert (m : IdMap) (k v : String) : IdMap :=
  if m.any (fun p => p.1 = k) then
    m.map (fun p => if p.1 = k then (k, v) else p)
  else m ++ [(k, v)]

/-- Property lookup on a property bag (Cypher `n.key`, `null` when absent). -/
def propGet (props : List (String × String)) (k : String) : Option String :=
  (props.find? (fun p => p.1 = k)).map (fun p => p.2)

/-- Python `str.isidentifier()` (modelled over ASCII: a leading letter or
underscore followed by letters, digits or underscores). -/
def isidentifier (s : String) : Bool :=
  match s.data with
  | [] => false
  | c :: cs => (c.isAlpha || c == '_') && cs.all (fun d => d.isAlphanum || d == '_')

/-- `_safe_label`: ensure the supplied label/rel-type is a bare identifier;
return it backtick-quoted, else raise `ValueError`. -/
def _safe_label (name : String) : Except String String :=
  if isidentifier name then Except.ok ("`" ++ name ++ "`")
  else Except.error ("Illegal label/type: '" ++ name ++ "'")

/-- Insert into a lexicographically sorted list of strings. -/
def insertSorted (s : String) : List String → List String
  | [] => [s]
  | t :: ts => if s ≤ t then s :: t :: ts else t :: insertSorted s ts

/-- Python `sorted` on a list of strings (insertion sort). -/
def sortLabels (ls : List String) : List String :=
  ls.foldr insertSorted []

/-- First-occurrence deduplication: the iteration order of the keys of a
Python `defaultdict` filled by a single pass over the rows. -/
def firstDedup {κ : Type} [DecidableEq κ] : List κ → List κ
  | [] => []
  | k :: ks => k :: (firstDedup ks).filter (fun x => x ≠ k)

/-- Validate every label of a group key through `_safe_label`, as done while
building the `label_fragment` of the node-create template.  The first illegal
name raises. -/
def validateLabels : List String → Except String (List String)
  | [] => Except.ok []
  | l :: ls =>
    match _safe_label l with
    | Except.error e => Except.error e
    | Except.ok s =>
      match validateLabels ls with
      | Except.error e => Except.error e
      | Except.ok rest => Except.ok (s :: rest)

/-- One batched node create for one label group
(`UNWIND $batch AS row CREATE (n:L1:L2) SET n = row.props
RETURN elementId(n) AS new_id, row.eid AS old_id`): each row creates a node
carrying the (sorted) group label set and the row's property bag, and the
returned `(old_id, new_id)` pairing is inserted into the Identifier Map in
batch order. -/
def createNodeGroup (labels : List String) : List NodeRow → DB → IdMap → DB × IdMap
  | [], db, m => (db, m)
  | r :: rs, db, m =>
    let newId := freshId db
    createNodeGroup labels rs
      { nodes := db.nodes ++ [{ eid := newId, labels := labels, props := r.props }],
        rels := db.rels, nextId := db.nextId + 1 }
      (dictInsert m r.eid newId)

/-- Process the label groups of one fetched page in key insertion order:
validate the group's labels, then issue the batched create for the rows of
that group. -/
def createNodeGroups (rows : List NodeRow) : List (List String) → DB → IdMap →
    Except String (DB × IdMap)
  | [], db, m => Except.ok (db, m)
  | k :: ks, db, m =>
    match validateLabels k with
    | Except.error e => Except.error e
    | Except.ok _ =>
      let p := createNodeGroup k (rows.filter (fun r => sortLabels r.labels = k)) db m
      createNodeGroups rows ks p.1 p.2

/-- `_batch_create_nodes`: group the page's rows by their sorted label set
(`tuple(sorted(r["labels"]))`) and insert each group in one round-trip,
populating the Identifier Map. -/
def _batch_create_nodes (db : DB) (rows : List NodeRow) (m : IdMap) :
    Except String (DB × IdMap) :=
  createNodeGroups rows (firstDedup (rows.map (fun r => sortLabels r.labels))) db m

/-- One batched relationship create for one type group
(`UNWIND $batch AS row MATCH (a) WHERE elementId(a) = row.start
MATCH (b) WHERE elementId(b) = row.end CREATE (a)-[r:TYPE]->(b)
SET r = row.props RETURN ...`): a row produces a created relationship (and a
returned descriptor) only when both `MATCH`es find a target node. -/
def createRelGroup (relType : String) :
    List RelRow → DB → List RelDescriptor → DB × List RelDescriptor
  | [], db, ds => (db, ds)
  | row :: rest, db, ds =>
    if db.nodes.any (fun n => n.eid = row.start) &&
       db.nodes.any (fun n => n.eid = row.end_) then
      let rid := freshId db
      createRelGroup relType rest
        { nodes := db.nodes,
          rels := db.rels ++ [{ rel_id := rid, type := relType, start := row.start,
                                end_ := row.end_, props := row.props }],
          nextId := db.nextId + 1 }
        (ds ++ [{ rel_id := rid, type := relType, start_node := row.start,
                  end_node := row.end_ }])
    else createRelGroup relType rest db ds

/-- Process the type groups of one page in key insertion order: validate the
type name through `_safe_label`, then issue the batched create for the rows
of that group. -/
def createRelGroups (rows : List RelRow) : List String → DB → List RelDescriptor →
    Except String (DB × List RelDescriptor)
  | [], db, ds => Except.ok (db, ds)
  | t :: ts, db, ds =>
    match _safe_label t with
    | Except.error e => Except.error e
    | Except.ok _ =>
      let p := createRelGroup t (rows.filter (fun r => r.type = t)) db ds
      createRelGroups rows ts p.1 p.2

/-- `_batch_create_relationships`: group the page's surviving rows by their
own recorded `type` and insert each group in one round-trip, collecting a
descriptor per created relationship. -/
def _batch_create_relationships (db : DB) (rows : List RelRow) :
    Except String (DB × List RelDescriptor) :=
  createRelGroups rows (firstDedup (rows.map (fun r => r.type))) db []

/-- Python truthiness of the `labels` / `types` argument (`if labels:`):
`None` and the empty list are falsy. -/
def truthyList (o : Option (List String)) : Bool :=
  match o with
  | none => false
  | some l => !l.isEmpty

/-- The node label filter `any(label IN labels(n) WHERE label IN $labels)`. -/
def labelFilterPred (ls : List String) (n : NodeRow) : Bool :=
  n.labels.any (fun l => decide (l ∈ ls))

/-- The source nodes the node-copy query ranges over: filtered by label
membership when the filter argument is truthy, all nodes otherwise. -/
def nodesMatching (src : List NodeRow) (labels : Option (List String)) : List NodeRow :=
  if truthyList labels then src.filter (labelFilterPred (labels.getD [])) else src

/-- The driver's reply to one paginated node fetch
(`WITH n SKIP $skip LIMIT $limit`). -/
def fetchNodes (src : List NodeRow) (labels : Option (List String))
    (skip limit : Nat) : List NodeRow :=
  ((nodesMatching src labels).drop skip).take limit

/-- The `while True:` loop of `_copy_nodes`: fetch a page, break when the
fetched page is empty, otherwise run `_batch_create_nodes` and advance `skip`
by the page size. -/
def copyNodesLoop (src : List NodeRow) (labels : Option (List String))
    (pageSize : Nat) : Nat → Nat → DB → IdMap → Option (Except String (IdMap × DB))
  | 0, _, _, _ => none
  | fuel + 1, skip, db, m =>
    let batch := fetchNodes src labels skip pageSize
    if batch.isEmpty then some (Except.ok (m, db))
    else
      match _batch_create_nodes db batch m with
      | Except.error e => some (Except.error e)
      | Except.ok (db', m') => copyNodesLoop src labels pageSize fuel (skip + pageSize) db' m'

/-- `_copy_nodes(src, tgt, labels, page_size)`: copy nodes with the specified
labels, returning the Identifier Map (and the grown target).  The supplied
fuel provably suffices for every page size. -/
def _copy_nodes (src : List NodeRow) (tgt : DB) (labels : Option (List String))
    (page_size : Nat) : Option (Except String (IdMap × DB)) :=
  copyNodesLoop src labels page_size (src.length + 1) 0 tgt []

/-- The relationship type filter and pagination over the source relationships
(`MATCH (a)-[r]->(b) [WHERE type(r) IN $types] WITH r, a, b SKIP $skip
LIMIT $limit`). -/
def relsMatching (src : List RelRow) (types : Option (List String)) : List RelRow :=
  if truthyList types then src.filter (fun r => decide (r.type ∈ types.getD [])) else src

/-- The driver's reply to one paginated relationship fetch. -/
def fetchRels (src : List RelRow) (types : Option (List String))
    (skip limit : Nat) : List RelRow :=
  ((relsMatching src types).drop skip).take limit

/-- A Neo4j session answering the paginated relationship query, modelled at
its interface boundary: given the type filter, `skip` and `limit`, it returns
the rows of that page.  A session backed by an unchanging database is
`relSessionOfDb`; the abstraction also covers the driver-inconsistency /
concurrent-mutation scenarios the spec's error taxonomy mentions. -/
def RelSession : Type := Option (List String) → Nat → Nat → List RelRow

/-- The session of an unchanging source database. -/
def relSessionOfDb (src : List RelRow) : RelSession :=
  fun types skip limit => fetchRels src types skip limit

/-- The per-page endpoint reconciliation of `_copy_relationships`: resolve
both endpoints through the Identifier Map with `id_map.get`, keep the row
only when both resolved values are truthy (`if start_tgt and end_tgt:`,
which also drops an empty-string value), and rewrite the endpoints to the
target-side ids. -/
def surviveBatch (m : IdMap) (recs : List RelRow) : List RelRow :=
  recs.filterMap (fun rec =>
    match dictGet m rec.start, dictGet m rec.end_ with
    | some s, some e =>
      if s = "" ∨ e = "" then none
      else some { type := rec.type, start := s, end_ := e, props := rec.props }
    | _, _ => none)

/-- The `while True:` loop of `_copy_relationships`.  Note that, unlike the
node loop, it breaks when the *surviving* batch of a page is empty
(`if not batch: break` after the endpoint filter), not when the fetched page
is empty. -/
def copyRelsLoop (fetch : Nat → Nat → List RelRow) (m : IdMap) (pageSize : Nat) :
    Nat → Nat → DB → List RelDescriptor → Option (Except String (DB × List RelDescriptor))
  | 0, _, _, _ => none
  | fuel + 1, skip, db, acc =>
    let recs := fetch skip pageSize
    let batch := surviveBatch m recs
    if batch.isEmpty then some (Except.ok (db, acc))
    else
      match _batch_create_relationships db batch with
      | Except.error e => some (Except.error e)
      | Except.ok (db', ds) =>
        copyRelsLoop fetch m pageSize fuel (skip + pageSize) db' (acc ++ ds)

/-- `_copy_relationships(src, tgt, id_map, types, page_size)` over an
arbitrary session, with explicit fuel. -/
def _copy_relationships (src : RelSession) (tgt : DB) (id_map : IdMap)
    (types : Option (List String)) (page_size : Nat) (fuel : Nat) :
    Option (Except String (DB × List RelDescriptor)) :=
  copyRelsLoop (fun skip limit => src types skip limit) id_map page_size fuel 0 tgt []

/-- `_copy_relationships` against an unchanging source database; the supplied
fuel provably suffices for every page size. -/
def copyRelationshipsDb (src : List RelRow) (tgt : DB) (id_map : IdMap)
    (types : Option (List String)) (page_size : Nat) :
    Option (Except String (DB × List RelDescriptor)) :=
  _copy_relationships (relSessionOfDb src) tgt id_map types page_size (src.length + 1)

/-- `KeyTransferSpec` from `models.py` (both fields `Optional[str]`). -/
structure KeyTransferSpec where
  source : Option String
  target : Option String
deriving DecidableEq, Repr

/-- The duck-typed union `list[str] | dict[str, KeyTransferSpec]` used for
`TransferSpec.node_labels` and `TransferSpec.relationship_types`. -/
inductive LabelSpec
  | simple : List String → LabelSpec
  | mapped : List (String × KeyTransferSpec) → LabelSpec
deriving DecidableEq, Repr

/-- `TransferSpec` exactly as declared in `models.py`: `timestamp_key : str`
(the field's type makes a null value unconstructible), `timestamp : datetime`
(modelled by its ISO-8601 rendering, so `.isoformat()` is the identity),
`node_labels` and `relationship_types`. -/
structure TransferSpec where
  timestamp_key : String
  timestamp : String
  node_labels : LabelSpec
  relationship_types : LabelSpec
deriving DecidableEq, Repr

/-- Modelled from the spec: §3 lists "a batch/page size" and "a flag to reset
the target before copying" as TransferSpec configuration.  `transfer` reads
`spec.batch_size` (and `getattr(spec, 'reset_target', False)`), but the
snapshot's `models.py` declares neither field on `TransferSpec`, so they are
carried alongside the declared fields here. -/
structure TransferConfig where
  spec : TransferSpec
  batch_size : Nat
  reset_target : Bool
deriving DecidableEq, Repr

/-- Modelled from the spec: `UploadResult` is imported from
`neo4j_transfer.models` but absent from the snapshot's `models.py`; §6 gives
its fields (`started_at, finished_at, seconds_to_complete, records_total,
records_completed, was_successful, nodes_created, relationships_created,
properties_set`; the three wall-clock fields are not modelled). -/
structure UploadResult where
  records_total : Nat
  records_completed : Nat
  was_successful : Bool
  nodes_created : Nat
  relationships_created : Nat
  properties_set : Nat
deriving DecidableEq, Repr

/-- `_reset_target_db`: drops all constraints and indexes (not modelled) and
deletes every node and relationship in batches until none remain. -/
def resetTargetDb (db : DB) : DB :=
  { nodes := [], rels := [], nextId := db.nextId }

/-- The label/type argument `transfer` hands to the copy helpers.  The list
form is passed through; the empty dict form is falsy inside the copier (like
the empty list), while a nonempty dict reaches the Cypher `IN $labels` as a
map parameter, which the engine rejects with a type error. -/
def labelsParamOf : LabelSpec → Except String (Option (List String))
  | LabelSpec.simple ls => Except.ok (some ls)
  | LabelSpec.mapped [] => Except.ok (some [])
  | LabelSpec.mapped _ => Except.error "CypherTypeError: expected a list for IN"

/-- `transfer(source_creds, target_creds, spec)`: optionally reset the
target, copy nodes, copy relationships, and aggregate the counts into an
`UploadResult` (credential validation and the session lifecycle are outside
the model). -/
def transfer (srcNodes : List NodeRow) (srcRels : List RelRow) (tgt : DB)
    (cfg : TransferConfig) : Option (Except String (DB × UploadResult)) :=
  let tgt := if cfg.reset_target then resetTargetDb tgt else tgt
  match labelsParamOf cfg.spec.node_labels with
  | Except.error e => some (Except.error e)
  | Except.ok node_labels =>
    match _copy_nodes srcNodes tgt node_labels cfg.batch_size with
    | none => none
    | some (Except.error e) => some (Except.error e)
    | some (Except.ok (id_map, db1)) =>
      match labelsParamOf cfg.spec.relationship_types with
      | Except.error e => some (Except.error e)
      | Except.ok rel_types =>
        match copyRelationshipsDb srcRels db1 id_map rel_types cfg.batch_size with
        | none => none
        | some (Except.error e) => some (Except.error e)
        | some (Except.ok (db2, all_relationships)) =>
          some (Except.ok (db2,
            { records_total := id_map.length + all_relationships.length,
              records_completed := id_map.length + all_relationships.length,
              was_successful := true,
              nodes_created := id_map.length,
              relationships_created := all_relationships.length,
              properties_set := 0 }))

/-- `transfer_generator`: the progress-yielding variant.  The first component
collects the yielded `UploadResult`s in order (one after node copy, one final
after relationship copy); the second is the final outcome (`ok` with the
target, or the raised error). -/
def transfer_generator (srcNodes : List NodeRow) (srcRels : List RelRow) (tgt : DB)
    (cfg : TransferConfig) : Option (List UploadResult × Except String DB) :=
  let tgt := if cfg.reset_target then resetTargetDb tgt else tgt
  match labelsParamOf cfg.spec.node_labels with
  | Except.error e => some ([], Except.error e)
  | Except.ok node_labels =>
    match _copy_nodes srcNodes tgt node_labels cfg.batch_size with
    | none => none
    | some (Except.error e) => some ([], Except.error e)
    | some (Except.ok (id_map, db1)) =>
      let nodes_copied := id_map.length
      let r1 : UploadResult :=
        { records_total := nodes_copied, records_completed := nodes_copied,
          was_successful := true, nodes_created := nodes_copied,
          relationships_created := 0, properties_set := 0 }
      match labelsParamOf cfg.spec.relationship_types with
      | Except.error e => some ([r1], Except.error e)
      | Except.ok rel_types =>
        match copyRelationshipsDb srcRels db1 id_map rel_types cfg.batch_size with
        | none => none
        | some (Except.error e) => some ([r1], Except.error e)
        | some (Except.ok (db2, all_relationships)) =>
          let n := nodes_copied
          let k := all_relationships.length
          some ([r1,
            { records_total := n + k, records_completed := n + k,
              was_successful := true, nodes_created := n,
              relationships_created := k, properties_set := 0 }], Except.ok db2)

/-- `undo(creds, spec)`: one query
`MATCH (n) WHERE n.<timestamp_key> = $datetime DETACH DELETE n
RETURN count(n)` with `$datetime = spec.timestamp.isoformat()`.  Nodes whose
property under `spec.timestamp_key` equals the ISO string are deleted, every
relationship attached to a deleted node is detached (deleted) with them, and
the deleted-node count of the summary is returned. -/
def undo (db : DB) (spec : TransferSpec) : DB × Nat :=
  let timestamp_key := spec.timestamp_key
  let timestamp_value := spec.timestamp
  let matched := db.nodes.filter
    (fun n => decide (propGet n.props timestamp_key = some timestamp_value))
  let deletedIds := matched.map (fun n => n.eid)
  ({ nodes := db.nodes.filter
       (fun n => decide (¬ propGet n.props timestamp_key = some timestamp_value)),
     rels := db.rels.filter
       (fun r => decide (¬ r.start ∈ deletedIds ∧ ¬ r.end_ ∈ deletedIds)),
     nextId := db.nextId }, matched.length)

/-- The Python values appearing in `TransferSpec.dict().items()`:
strings, `None`, `datetime`s (hashable) and lists / dicts (unhashable). -/
inductive PyVal
  | str : String → PyVal
  | pynone : PyVal
  | dt : String → PyVal
  | list : List PyVal → PyVal
  | dict : List (String × PyVal) → PyVal

/-- A deterministic stand-in for CPython's string hash. -/
def pyStrHash (s : String) : Nat :=
  s.data.foldl (fun h c => h * 31 + c.toNat) 7

/-- Python `hash(v)`: defined for strings, `None` and `datetime`s; raises
`TypeError` for a list or a dict. -/
def pyHash : PyVal → Except String Nat
  | PyVal.str s => Except.ok (pyStrHash s)
  | PyVal.pynone => Except.ok 5
  | PyVal.dt s => Except.ok (pyStrHash s + 1)
  | PyVal.list _ => Except.error "TypeError: unhashable type: 'list'"
  | PyVal.dict _ => Except.error "TypeError: unhashable type: 'dict'"

/-- Python `hash` of a tuple of `(field_name, value)` pairs: hashes the
items left to right, propagating the first `TypeError`. -/
def pyHashItems : List (String × PyVal) → Except String Nat
  | [] => Except.ok 97
  | (k, v) :: rest =>
    match pyHash v with
    | Except.error e => Except.error e
    | Except.ok hv =>
      match pyHashItems rest with
      | Except.error e => Except.error e
      | Except.ok hr => Except.ok ((pyStrHash k * 1000003 + hv) * 1000003 + hr)

/-- The Python value a `node_labels` / `relationship_types` field holds after
`self.dict()`: a plain list of strings, or a dict of plain dicts. -/
def labelSpecVal : LabelSpec → PyVal
  | LabelSpec.simple ls => PyVal.list (ls.map PyVal.str)
  | LabelSpec.mapped m => PyVal.dict (m.map (fun p =>
      (p.1, PyVal.dict [("source", match p.2.source with
                                   | none => PyVal.pynone
                                   | some s => PyVal.str s),
                        ("target", match p.2.target with
                                   | none => PyVal.pynone
                                   | some s => PyVal.str s)])))

/-- `self.dict().items()` for a `TransferSpec`, in field declaration order. -/
def TransferSpec.dictItems (s : TransferSpec) : List (String × PyVal) :=
  [("timestamp_key", PyVal.str s.timestamp_key),
   ("timestamp", PyVal.dt s.timestamp),
   ("node_labels", labelSpecVal s.node_labels),
   ("relationship_types", labelSpecVal s.relationship_types)]

/-- `TransferSpec.__hash__`:
`hash((type(self),) + tuple(self.dict().items()))`; the leading
`type(self)` element is hashable and modelled as a constant prefix mixed in
at the end. -/
def transferSpecHash (s : TransferSpec) : Except String Nat :=
  match pyHashItems s.dictItems with
  | Except.error e => Except.error e
  | Except.ok h => Except.ok (pyStrHash "TransferSpec" * 1000003 + h)

/-! ## Helper lemmas -/

theorem dictInsert_of_not_mem (m : IdMap) (k v : String) (h : keyMem m k = false) :
    dictInsert m k v = m ++ [(k, v)] := by
  unfold keyMem at h
  unfold dictInsert
  rw [h]
  simp

theorem keyMem_append (m : IdMap) (k v x : String) :
    keyMem (m ++ [(k, v)]) x = true ↔ (keyMem m x = true ∨ k = x) := by
  simp [keyMem, List.any_append]

theorem mem_insertSorted (s x : String) (l : List String) :
    x ∈ insertSorted s l ↔ (x = s ∨ x ∈ l) := by
  induction l with
  | nil => simp [insertSorted]
  | cons t ts ih =>
    by_cases h : s ≤ t
    · simp [insertSorted, h]
    · simp only [insertSorted, if_neg h, List.mem_cons, ih]
      tauto

theorem mem_sortLabels (x : String) (ls : List String) :
    x ∈ sortLabels ls ↔ x ∈ ls := by
  induction ls with
  | nil => simp [sortLabels]
  | cons l ls ih =>
    simp only [sortLabels, List.foldr_cons] at *
    rw [mem_insertSorted, ih, List.mem_cons]

theorem mem_firstDedup {κ : Type} [DecidableEq κ] (x : κ) (l : List κ) :
    x ∈ firstDedup l ↔ x ∈ l := by
  induction l with
  | nil => simp [firstDedup]
  | cons k ks ih =>
    simp only [firstDedup, List.mem_cons, List.mem_filter, ih]
    by_cases h : x = k
    · simp [h]
    · simp [h]

theorem nodup_firstDedup {κ : Type} [DecidableEq κ] (l : List κ) :
    (firstDedup l).Nodup := by
  induction l with
  | nil => simp [firstDedup]
  | cons k ks ih =>
    rw [firstDedup, List.nodup_cons]
    constructor
    · intro hmem
      have := (List.mem_filter.mp hmem).2
      simp at this
    · exact ih.filter _

theorem nodup_map_inj {α κ : Type} (f : α → κ) (l : List α)
    (h : (l.map f).Nodup) : ∀ a ∈ l, ∀ b ∈ l, f a = f b → a = b := by
  induction l with
  | nil => intro a ha; simp at ha
  | cons x xs ih =>
    intro a ha b hb hfab
    rw [List.map_cons, List.nodup_cons] at h
    rcases List.mem_cons.mp ha with rfl | ha' <;>
      rcases List.mem_cons.mp hb with rfl | hb'
    · rfl
    · exact absurd (hfab ▸ List.mem_map_of_mem f hb') h.1
    · exact absurd (hfab ▸ List.mem_map_of_mem f ha') h.1
    · exact ih h.2 a ha' b hb' hfab

theorem createNodeGroup_spec (labels : List String) :
    ∀ (rows : List NodeRow) (db : DB) (m : IdMap),
      (rows.map (fun r => r.eid)).Nodup →
      (∀ r ∈ rows, keyMem m r.eid = false) →
      ((createNodeGroup labels rows db m).2.length = m.length + rows.length ∧
       ∀ x, keyMem (createNodeGroup labels rows db m).2 x = true ↔
         (keyMem m x = true ∨ x ∈ rows.map (fun r => r.eid))) := by
  intro rows
  induction rows with
  | nil => intro db m _ _; simp [createNodeGroup]
  | cons r rs ih =>
    intro db m hnd hf
    rw [List.map_cons, List.nodup_cons] at hnd
    have hfr : keyMem m r.eid = false := hf r (List.mem_cons_self r rs)
    have hstep : createNodeGroup labels (r :: rs) db m =
        createNodeGroup labels rs
          { nodes := db.nodes ++ [{ eid := freshId db, labels := labels, props := r.props }],
            rels := db.rels, nextId := db.nextId + 1 }
          (m ++ [(r.eid, freshId db)]) := by
      rw [createNodeGroup, dictInsert_of_not_mem m r.eid _ hfr]
    have hf' : ∀ r' ∈ rs, keyMem (m ++ [(r.eid, freshId db)]) r'.eid = false := by
      intro r' hr'
      have h1 : keyMem m r'.eid = false := hf r' (List.mem_cons_of_mem r hr')
      have h2 : r.eid ≠ r'.eid := by
        intro he
        exact hnd.1 (he ▸ List.mem_map_of_mem (fun r => r.eid) hr')
      rw [Bool.eq_false_iff]
      intro htrue
      rcases (keyMem_append m r.eid (freshId db) r'.eid).mp htrue with h | h
      · rw [h1] at h; exact Bool.false_ne_true h
      · exact h2 h
    obtain ⟨hlen, hmem⟩ :=
      ih ⟨db.nodes ++ [⟨freshId db, labels, r.props⟩], db.rels, db.nextId + 1⟩
        (m ++ [(r.eid, freshId db)]) hnd.2 hf'
    constructor
    · rw [hstep, hlen, List.length_append]
      simp [Nat.add_assoc, Nat.add_comm 1 rs.length]
    · intro x
      rw [hstep, hmem x, keyMem_append, List.map_cons, List.mem_cons]
      constructor
      · rintro ((h | h) | h)
        · exact Or.inl h
        · exact Or.inr (Or.inl h.symm)
        · exact Or.inr (Or.inr h)
      · rintro (h | h | h)
        · exact Or.inl (Or.inl h)
        · exact Or.inl (Or.inr h.symm)
        · exact Or.inr h

theorem length_filter_or {α : Type} (p q pc : α → Bool)
    (hpc : ∀ r, pc r = (p r || q r)) (hdisj : ∀ r, p r = true → q r = false) :
    ∀ rows : List α,
      (rows.filter pc).length = (rows.filter p).length + (rows.filter q).length := by
  intro rows
  induction rows with
  | nil => simp
  | cons a l ih =>
    rw [List.filter_cons, List.filter_cons, List.filter_cons]
    cases hp : p a with
    | true =>
      have hq : q a = false := hdisj a hp
      have hc : pc a = true := by rw [hpc, hp, hq]; rfl
      rw [hc, hq, if_pos rfl, if_pos rfl, if_neg (by simp)]
      simp only [List.length_cons, ih]
      omega
    | false =>
      cases hq : q a with
      | true =>
        have hc : pc a = true := by rw [hpc, hp, hq]; rfl
        rw [hc, if_pos rfl, if_neg (by simp), if_pos rfl]
        simp only [List.length_cons, ih]
        omega
      | false =>
        have hc : pc a = false := by rw [hpc, hp, hq]; rfl
        rw [hc, if_neg (by simp), if_neg (by simp), if_neg (by simp)]
        exact ih

theorem mem_map_filter_or {α : Type} (p q pc : α → Bool) (g : α → String)
    (hpc : ∀ r, pc r = (p r || q r)) (rows : List α) (x : String) :
    x ∈ (rows.filter pc).map g ↔
      (x ∈ (rows.filter p).map g ∨ x ∈ (rows.filter q).map g) := by
  simp only [List.mem_map, List.mem_filter]
  constructor
  · rintro ⟨r, ⟨hr, hcr⟩, rfl⟩
    rw [hpc] at hcr
    rcases Bool.or_eq_true_iff.mp hcr with h | h
    · exact Or.inl ⟨r, ⟨hr, h⟩, rfl⟩
    · exact Or.inr ⟨r, ⟨hr, h⟩, rfl⟩
  · rintro (⟨r, ⟨hr, h⟩, rfl⟩ | ⟨r, ⟨hr, h⟩, rfl⟩)
    · exact ⟨r, ⟨hr, by rw [hpc, h]; rfl⟩, rfl⟩
    · exact ⟨r, ⟨hr, by rw [hpc, h, Bool.or_true]⟩, rfl⟩

theorem validateLabels_ok_valid : ∀ (ls : List String) (out : List String),
    validateLabels ls = Except.ok out → ∀ l ∈ ls, isidentifier l = true := by
  intro ls
  induction ls with
  | nil => intro out _ l hl; simp at hl
  | cons a as ih =>
    intro out h l hl
    rw [validateLabels] at h
    by_cases ha : isidentifier a = true
    · rcases List.mem_cons.mp hl with rfl | hl'
      · exact ha
      · simp only [_safe_label, if_pos ha] at h
        cases hrest : validateLabels as with
        | error e => rw [hrest] at h; exact absurd h (by simp)
        | ok rest => exact ih rest hrest l hl'
    · simp only [_safe_label, if_neg ha] at h
      exact absurd h (by simp)

theorem createNodeGroups_spec (rows : List NodeRow)
    (hnd : (rows.map (fun r => r.eid)).Nodup) :
    ∀ (ks : List (List String)) (db : DB) (m : IdMap) (db' : DB) (m' : IdMap),
      ks.Nodup →
      (∀ r ∈ rows, sortLabels r.labels ∈ ks → keyMem m r.eid = false) →
      createNodeGroups rows ks db m = Except.ok (db', m') →
      (m'.length = m.length +
        (rows.filter (fun r => decide (sortLabels r.labels ∈ ks))).length ∧
       ∀ x, keyMem m' x = true ↔ (keyMem m x = true ∨
         x ∈ (rows.filter (fun r => decide (sortLabels r.labels ∈ ks))).map
               (fun r => r.eid))) := by
  intro ks
  induction ks with
  | nil =>
    intro db m db' m' _ _ h
    rw [createNodeGroups] at h
    have hfe : rows.filter (fun r => decide (sortLabels r.labels ∈ ([] : List (List String)))) = [] := by
      simp
    cases h
    rw [hfe]
    simp
  | cons k ks ih =>
    intro db m db' m' hknd hf h
    rw [createNodeGroups] at h
    cases hv : validateLabels k with
    | error e => rw [hv] at h; exact absurd h (by simp)
    | ok vs =>
      rw [hv] at h
      rw [List.nodup_cons] at hknd
      have hgsub : (rows.filter (fun r => sortLabels r.labels = k)).map (fun r => r.eid) |>.Sublist (rows.map (fun r => r.eid)) :=
        List.Sublist.map _ (List.filter_sublist rows)
      have hgnd : ((rows.filter (fun r => sortLabels r.labels = k)).map (fun r => r.eid)).Nodup :=
        hnd.sublist hgsub
      have hgf : ∀ r ∈ rows.filter (fun r => sortLabels r.labels = k), keyMem m r.eid = false := by
        intro r hr
        have hm := List.mem_filter.mp hr
        exact hf r hm.1 (by
          have := of_decide_eq_true hm.2
          rw [this]
          exact List.mem_cons_self k ks)
      obtain ⟨glen, gmem⟩ := createNodeGroup_spec k
        (rows.filter (fun r => sortLabels r.labels = k)) db m hgnd hgf
      have hf2 : ∀ r ∈ rows, sortLabels r.labels ∈ ks →
          keyMem (createNodeGroup k (rows.filter (fun r => sortLabels r.labels = k)) db m).2 r.eid = false := by
        intro r hr hrk
        rw [Bool.eq_false_iff]
        intro htrue
        rcases (gmem r.eid).mp htrue with hold | hnew
        · have : keyMem m r.eid = false := hf r hr (List.mem_cons_of_mem k hrk)
          rw [this] at hold
          exact Bool.false_ne_true hold
        · obtain ⟨r', hr', he⟩ := List.mem_map.mp hnew
          have hrmem := List.mem_filter.mp hr'
          have : r' = r := nodup_map_inj (fun r => r.eid) rows hnd r' hrmem.1 r hr he
          have hk' : sortLabels r.labels = k := by
            rw [← this]
            exact of_decide_eq_true hrmem.2
          exact hknd.1 (hk' ▸ hrk)
      obtain ⟨ilen, imem⟩ := ih
        (createNodeGroup k (rows.filter (fun r => sortLabels r.labels = k)) db m).1
        (createNodeGroup k (rows.filter (fun r => sortLabels r.labels = k)) db m).2
        db' m' hknd.2 hf2 h
      have hpc : ∀ r : NodeRow, (decide (sortLabels r.labels ∈ k :: ks)) =
          ((decide (sortLabels r.labels = k)) || (decide (sortLabels r.labels ∈ ks))) := by
        intro r
        by_cases h1 : sortLabels r.labels = k <;>
          by_cases h2 : sortLabels r.labels ∈ ks <;>
            simp [List.mem_cons, h1, h2]
      constructor
      · have h2 := length_filter_or (fun r : NodeRow => decide (sortLabels r.labels = k))
          (fun r : NodeRow => decide (sortLabels r.labels ∈ ks))
          (fun r : NodeRow => decide (sortLabels r.labels ∈ k :: ks))
          hpc
          (by
            intro r hp
            have h1 : sortLabels r.labels = k := of_decide_eq_true hp
            simp [h1 ▸ hknd.1])
          rows
        omega
      · intro x
        have h3 := mem_map_filter_or (fun r : NodeRow => decide (sortLabels r.labels = k))
          (fun r : NodeRow => decide (sortLabels r.labels ∈ ks))
          (fun r : NodeRow => decide (sortLabels r.labels ∈ k :: ks))
          (fun r => r.eid) hpc rows x
        rw [imem x, gmem x, h3]
        tauto

theorem batch_create_nodes_spec (db : DB) (rows : List NodeRow) (m : IdMap)
    (db' : DB) (m' : IdMap)
    (hnd : (rows.map (fun r => r.eid)).Nodup)
    (hf : ∀ r ∈ rows, keyMem m r.eid = false)
    (h : _batch_create_nodes db rows m = Except.ok (db', m')) :
    m'.length = m.length + rows.length ∧
    ∀ x, keyMem m' x = true ↔ (keyMem m x = true ∨ x ∈ rows.map (fun r => r.eid)) := by
  unfold _batch_create_nodes at h
  have hks := nodup_firstDedup (rows.map (fun r => sortLabels r.labels))
  obtain ⟨hlen, hmem⟩ := createNodeGroups_spec rows hnd
    (firstDedup (rows.map (fun r => sortLabels r.labels))) db m db' m' hks
    (fun r hr _ => hf r hr) h
  have hfull : rows.filter (fun r => decide (sortLabels r.labels ∈
      firstDedup (rows.map (fun r => sortLabels r.labels)))) = rows := by
    apply List.filter_eq_self.mpr
    intro a ha
    apply decide_eq_true
    rw [mem_firstDedup]
    exact List.mem_map_of_mem _ ha
  rw [hfull] at hlen
  refine ⟨hlen, fun x => ?_⟩
  have := hmem x
  rw [hfull] at this
  exact this

theorem copyNodesLoop_length (src : List NodeRow) (labels : Option (List String))
    (ps : Nat) (hps : 1 ≤ ps)
    (hnd : ((nodesMatching src labels).map (fun r => r.eid)).Nodup) :
    ∀ (fuel skip : Nat) (db : DB) (m : IdMap) (m' : IdMap) (db' : DB),
      m.length = ((nodesMatching src labels).take skip).length →
      (∀ x, keyMem m x = true ↔
        x ∈ ((nodesMatching src labels).take skip).map (fun r => r.eid)) →
      copyNodesLoop src labels ps fuel skip db m = some (Except.ok (m', db')) →
      m'.length = (nodesMatching src labels).length := by
  intro fuel
  induction fuel with
  | zero =>
    intro skip db m m' db' _ _ h
    rw [copyNodesLoop] at h
    cases h
  | succ fuel ih =>
    intro skip db m m' db' hlen hmem h
    rw [copyNodesLoop] at h
    by_cases hb : (fetchNodes src labels skip ps).isEmpty
    · rw [if_pos hb] at h
      have hbe : fetchNodes src labels skip ps = [] := List.isEmpty_iff.mp hb
      unfold fetchNodes at hbe
      have hdrop : (nodesMatching src labels).drop skip = [] := by
        rcases List.take_eq_nil_iff.mp hbe with hps0 | hd
        · omega
        · exact hd
      have hle : (nodesMatching src labels).length ≤ skip :=
        List.drop_eq_nil_iff.mp hdrop
      have htake : (nodesMatching src labels).take skip = nodesMatching src labels :=
        List.take_of_length_le hle
      rw [htake] at hlen
      cases h
      exact hlen
    · rw [if_neg hb] at h
      cases hbc : _batch_create_nodes db (fetchNodes src labels skip ps) m with
      | error e => rw [hbc] at h; cases h
      | ok p =>
        obtain ⟨db1, m1⟩ := p
        rw [hbc] at h
        have hbsub : (fetchNodes src labels skip ps).Sublist
            ((nodesMatching src labels).drop skip) :=
          List.take_sublist _ _
        have hsplit : (nodesMatching src labels).map (fun r => r.eid) =
            ((nodesMatching src labels).take skip).map (fun r => r.eid) ++
            ((nodesMatching src labels).drop skip).map (fun r => r.eid) := by
          rw [← List.map_append, List.take_append_drop]
        have hnd' := hnd
        rw [hsplit] at hnd'
        have hdisj := (List.nodup_append.mp hnd').2.2
        have hbnd : ((fetchNodes src labels skip ps).map (fun r => r.eid)).Nodup := by
          apply List.Nodup.sublist (List.Sublist.map _ hbsub)
          exact (List.nodup_append.mp hnd').2.1
        have hbf : ∀ r ∈ fetchNodes src labels skip ps, keyMem m r.eid = false := by
          intro r hr
          rw [Bool.eq_false_iff]
          intro htrue
          have h1 : r.eid ∈ ((nodesMatching src labels).take skip).map (fun r => r.eid) :=
            (hmem r.eid).mp htrue
          have h2 : r.eid ∈ ((nodesMatching src labels).drop skip).map (fun r => r.eid) :=
            List.mem_map_of_mem _ (hbsub.mem hr)
          exact hdisj h1 h2
        obtain ⟨blen, bmem⟩ := batch_create_nodes_spec db
          (fetchNodes src labels skip ps) m db1 m1 hbnd hbf hbc
        have htakeadd : (nodesMatching src labels).take (skip + ps) =
            (nodesMatching src labels).take skip ++ fetchNodes src labels skip ps := by
          rw [List.take_add]
          rfl
        apply ih (skip + ps) db1 m1 m' db'
        · rw [htakeadd, List.length_append, blen, hlen]
        · intro x
          rw [bmem x, hmem x, htakeadd, List.map_append, List.mem_append]
        · exact h

theorem safe_label_ok (name : String) (h : isidentifier name = true) :
    _safe_label name = Except.ok ("`" ++ name ++ "`") := by
  unfold _safe_label
  rw [if_pos h]

theorem safe_label_error (name : String) (h : isidentifier name = false) :
    _safe_label name = Except.error ("Illegal label/type: '" ++ name ++ "'") := by
  unfold _safe_label
  rw [if_neg (by simp [h])]

theorem createRelGroup_origin (relType : String) :
    ∀ (rows : List RelRow) (db : DB) (ds : List RelDescriptor),
      (∀ t ∈ (createRelGroup relType rows db ds).1.rels,
        t ∈ db.rels ∨ ∃ row ∈ rows,
          t.type = relType ∧ t.start = row.start ∧ t.end_ = row.end_) ∧
      (∀ d ∈ (createRelGroup relType rows db ds).2,
        d ∈ ds ∨ ∃ row ∈ rows,
          d.type = relType ∧ d.start_node = row.start ∧ d.end_node = row.end_) := by
  intro rows
  induction rows with
  | nil =>
    intro db ds
    constructor
    · intro t ht
      rw [createRelGroup] at ht
      exact Or.inl ht
    · intro d hd
      rw [createRelGroup] at hd
      exact Or.inl hd
  | cons row rest ih =>
    intro db ds
    rw [createRelGroup]
    by_cases hc : (db.nodes.any (fun n => n.eid = row.start) &&
        db.nodes.any (fun n => n.eid = row.end_)) = true
    · rw [if_pos hc]
      obtain ⟨ihdb, ihds⟩ := ih
        ⟨db.nodes,
         db.rels ++ [⟨freshId db, relType, row.start, row.end_, row.props⟩],
         db.nextId + 1⟩
        (ds ++ [⟨freshId db, relType, row.start, row.end_⟩])
      constructor
      · intro t ht
        rcases ihdb t ht with hin | ⟨row', hrow', hp⟩
        · rcases List.mem_append.mp hin with hold | hnew
          · exact Or.inl hold
          · rcases List.mem_singleton.mp hnew with rfl
            exact Or.inr ⟨row, List.mem_cons_self row rest, rfl, rfl, rfl⟩
        · exact Or.inr ⟨row', List.mem_cons_of_mem row hrow', hp⟩
      · intro d hd
        rcases ihds d hd with hin | ⟨row', hrow', hp⟩
        · rcases List.mem_append.mp hin with hold | hnew
          · exact Or.inl hold
          · rcases List.mem_singleton.mp hnew with rfl
            exact Or.inr ⟨row, List.mem_cons_self row rest, rfl, rfl, rfl⟩
        · exact Or.inr ⟨row', List.mem_cons_of_mem row hrow', hp⟩
    · rw [if_neg hc]
      obtain ⟨ihdb, ihds⟩ := ih db ds
      constructor
      · intro t ht
        rcases ihdb t ht with hin | ⟨row', hrow', hp⟩
        · exact Or.inl hin
        · exact Or.inr ⟨row', List.mem_cons_of_mem row hrow', hp⟩
      · intro d hd
        rcases ihds d hd with hin | ⟨row', hrow', hp⟩
        · exact Or.inl hin
        · exact Or.inr ⟨row', List.mem_cons_of_mem row hrow', hp⟩

theorem createRelGroups_origin (rows : List RelRow) :
    ∀ (ks : List String) (db : DB) (ds : List RelDescriptor)
      (db' : DB) (ds' : List RelDescriptor),
      createRelGroups rows ks db ds = Except.ok (db', ds') →
      (∀ t ∈ db'.rels, t ∈ db.rels ∨ ∃ row ∈ rows,
          t.type = row.type ∧ t.start = row.start ∧ t.end_ = row.end_) ∧
      (∀ d ∈ ds', d ∈ ds ∨ ∃ row ∈ rows,
          d.type = row.type ∧ d.start_node = row.start ∧ d.end_node = row.end_) := by
  intro ks
  induction ks with
  | nil =>
    intro db ds db' ds' h
    rw [createRelGroups] at h
    cases h
    exact ⟨fun t ht => Or.inl ht, fun d hd => Or.inl hd⟩
  | cons k ts ih =>
    intro db ds db' ds' h
    rw [createRelGroups] at h
    cases hv : _safe_label k with
    | error e => rw [hv] at h; cases h
    | ok s =>
      rw [hv] at h
      obtain ⟨ihdb, ihds⟩ := ih
        (createRelGroup k (rows.filter (fun r => r.type = k)) db ds).1
        (createRelGroup k (rows.filter (fun r => r.type = k)) db ds).2
        db' ds' h
      obtain ⟨gdb, gds⟩ := createRelGroup_origin k
        (rows.filter (fun r => r.type = k)) db ds
      constructor
      · intro t ht
        rcases ihdb t ht with hin | ⟨row', hrow', hp⟩
        · rcases gdb t hin with hold | ⟨row', hrow', hty, hs, he⟩
          · exact Or.inl hold
          · have hm := List.mem_filter.mp hrow'
            refine Or.inr ⟨row', hm.1, ?_, hs, he⟩
            rw [hty, of_decide_eq_true hm.2]
        · exact Or.inr ⟨row', hrow', hp⟩
      · intro d hd
        rcases ihds d hd with hin | ⟨row', hrow', hp⟩
        · rcases gds d hin with hold | ⟨row', hrow', hty, hs, he⟩
          · exact Or.inl hold
          · have hm := List.mem_filter.mp hrow'
            refine Or.inr ⟨row', hm.1, ?_, hs, he⟩
            rw [hty, of_decide_eq_true hm.2]
        · exact Or.inr ⟨row', hrow', hp⟩

theorem createRelGroups_isOk (rows : List RelRow) :
    ∀ (ks : List String) (db : DB) (ds : List RelDescriptor),
      (createRelGroups rows ks db ds).isOk = true ↔
        ∀ t ∈ ks, isidentifier t = true := by
  intro ks
  induction ks with
  | nil =>
    intro db ds
    rw [createRelGroups]
    simp [Except.isOk, Except.toBool]
  | cons k ts ih =>
    intro db ds
    rw [createRelGroups]
    by_cases hk : isidentifier k = true
    · rw [safe_label_ok k hk]
      constructor
      · intro h t ht
        rcases List.mem_cons.mp ht with rfl | ht'
        · exact hk
        · exact (ih _ _).mp h t ht'
      · intro h
        exact (ih _ _).mpr (fun t ht => h t (List.mem_cons_of_mem k ht))
    · rw [safe_label_error k (Bool.eq_false_iff.mpr hk)]
      constructor
      · intro h
        exact absurd h (by simp [Except.isOk, Except.toBool])
      · intro h
        exact absurd (h k (List.mem_cons_self k ts)) hk

theorem createNodeGroups_ok_valid (rows : List NodeRow) :
    ∀ (ks : List (List String)) (db : DB) (m : IdMap) (db' : DB) (m' : IdMap),
      createNodeGroups rows ks db m = Except.ok (db', m') →
      ∀ k ∈ ks, ∀ l ∈ k, isidentifier l = true := by
  intro ks
  induction ks with
  | nil => intro db m db' m' _ k hk; simp at hk
  | cons k0 ks ih =>
    intro db m db' m' h k hk l hl
    rw [createNodeGroups] at h
    cases hv : validateLabels k0 with
    | error e => rw [hv] at h; cases h
    | ok vs =>
      rw [hv] at h
      rcases List.mem_cons.mp hk with rfl | hk'
      · exact validateLabels_ok_valid k vs hv l hl
      · exact ih _ _ db' m' h k hk' l hl

theorem mem_surviveBatch (m : IdMap) (recs : List RelRow) (b : RelRow) :
    b ∈ surviveBatch m recs ↔ ∃ rec ∈ recs, ∃ s e : String,
      dictGet m rec.start = some s ∧ s ≠ "" ∧
      dictGet m rec.end_ = some e ∧ e ≠ "" ∧
      b = ⟨rec.type, s, e, rec.props⟩ := by
  unfold surviveBatch
  rw [List.mem_filterMap]
  constructor
  · rintro ⟨rec, hrec, hf⟩
    cases hs : dictGet m rec.start with
    | none => rw [hs] at hf; simp at hf
    | some s =>
      cases he : dictGet m rec.end_ with
      | none => rw [hs, he] at hf; simp at hf
      | some e =>
        rw [hs, he] at hf
        simp at hf
        exact ⟨rec, hrec, s, e, hs, hf.1.1, he, hf.1.2, hf.2.symm⟩
  · rintro ⟨rec, hrec, s, e, hs, hsne, he, hene, rfl⟩
    refine ⟨rec, hrec, ?_⟩
    rw [hs, he]
    simp [hsne, hene]

theorem copyRelsLoop_created_endpoints (fetch : Nat → Nat → List RelRow)
    (m : IdMap) (ps : Nat) :
    ∀ (fuel skip : Nat) (db : DB) (acc : List RelDescriptor)
      (db' : DB) (ds' : List RelDescriptor),
      copyRelsLoop fetch m ps fuel skip db acc = some (Except.ok (db', ds')) →
      ∀ t ∈ db'.rels, t ∈ db.rels ∨ ∃ k1 k2 : String,
        dictGet m k1 = some t.start ∧ t.start ≠ "" ∧
        dictGet m k2 = some t.end_ ∧ t.end_ ≠ "" := by
  intro fuel
  induction fuel with
  | zero => intro skip db acc db' ds' h; rw [copyRelsLoop] at h; cases h
  | succ fuel ih =>
    intro skip db acc db' ds' h
    rw [copyRelsLoop] at h
    by_cases hb : (surviveBatch m (fetch skip ps)).isEmpty
    · rw [if_pos hb] at h
      cases h
      exact fun t ht => Or.inl ht
    · rw [if_neg hb] at h
      cases hbc : _batch_create_relationships db (surviveBatch m (fetch skip ps)) with
      | error e => rw [hbc] at h; cases h
      | ok p =>
        obtain ⟨db1, ds1⟩ := p
        rw [hbc] at h
        intro t ht
        rcases ih (skip + ps) db1 (acc ++ ds1) db' ds' h t ht with h1 | h1
        · unfold _batch_create_relationships at hbc
          obtain ⟨gdb, _⟩ := createRelGroups_origin (surviveBatch m (fetch skip ps))
            (firstDedup ((surviveBatch m (fetch skip ps)).map (fun r => r.type)))
            db [] db1 ds1 hbc
          rcases gdb t h1 with hold | ⟨row, hrow, _, hs, he⟩
          · exact Or.inl hold
          · obtain ⟨rec, _, s, e, hds, hsne, hde, hene, heq⟩ :=
              (mem_surviveBatch m (fetch skip ps) row).mp hrow
            refine Or.inr ⟨rec.start, rec.end_, ?_, ?_, ?_, ?_⟩
            · rw [hs, heq]; exact hds
            · rw [hs, heq]; exact hsne
            · rw [he, heq]; exact hde
            · rw [he, heq]; exact hene
        · exact Or.inr h1

/-! ## Claim theorems -/

/-- C4: a fetched relationship row survives to the batched create iff both
endpoints resolve (to truthy values) through the Identifier Map — an absent
endpoint drops the row — and every relationship the copy loop ever creates in
the target has both endpoints resolved through the map. -/
theorem C4_unmapped_endpoints_dropped (m : IdMap) (recs : List RelRow) :
    (∀ b, b ∈ surviveBatch m recs ↔ ∃ rec ∈ recs, ∃ s e : String,
        dictGet m rec.start = some s ∧ s ≠ "" ∧
        dictGet m rec.end_ = some e ∧ e ≠ "" ∧
        b = ⟨rec.type, s, e, rec.props⟩) ∧
    (∀ (fetch : Nat → Nat → List RelRow) (ps fuel skip : Nat) (db : DB)
        (acc : List RelDescriptor) (db' : DB) (ds' : List RelDescriptor),
      copyRelsLoop fetch m ps fuel skip db acc = some (Except.ok (db', ds')) →
      ∀ t ∈ db'.rels, t ∈ db.rels ∨ ∃ k1 k2 : String,
        dictGet m k1 = some t.start ∧ t.start ≠ "" ∧
        dictGet m k2 = some t.end_ ∧ t.end_ ≠ "") :=
  ⟨fun b => mem_surviveBatch m recs b,
   fun fetch ps fuel skip db acc db' ds' h =>
     copyRelsLoop_created_endpoints fetch m ps fuel skip db acc db' ds' h⟩

theorem C4_unmapped_endpoints_dropped_witness :
    (⟨"K", "t0", "t1", []⟩ : RelRow) ∈
      surviveBatch [("a", "t0"), ("b", "t1")] [⟨"K", "a", "b", []⟩] :=
  ((C4_unmapped_endpoints_dropped [("a", "t0"), ("b", "t1")]
      [⟨"K", "a", "b", []⟩]).1 ⟨"K", "t0", "t1", []⟩).mpr
    ⟨⟨"K", "a", "b", []⟩, by decide, "t0", "t1", rfl, by decide, rfl, by decide, rfl⟩

/-- C5: every label and relationship-type name used in a create template goes
through `_safe_label`, which returns the backtick-quoted name exactly when the
string is a bare identifier and raises otherwise; consequently a batched
create can only succeed when every label of every row (resp. every row's
type) is an identifier — a non-identifier name aborts the batch. -/
theorem C5_names_validated (name : String) (db db2 : DB) (rows : List NodeRow)
    (m : IdMap) (rrows : List RelRow) :
    (isidentifier name = true → _safe_label name = Except.ok ("`" ++ name ++ "`")) ∧
    (isidentifier name = false →
      _safe_label name = Except.error ("Illegal label/type: '" ++ name ++ "'")) ∧
    (∀ db' m', _batch_create_nodes db rows m = Except.ok (db', m') →
      ∀ r ∈ rows, ∀ l ∈ r.labels, isidentifier l = true) ∧
    (∀ db' ds, _batch_create_relationships db2 rrows = Except.ok (db', ds) →
      ∀ r ∈ rrows, isidentifier r.type = true) := by
  refine ⟨safe_label_ok name, safe_label_error name, ?_, ?_⟩
  · intro db' m' h r hr l hl
    unfold _batch_create_nodes at h
    have hk := createNodeGroups_ok_valid rows
      (firstDedup (rows.map (fun r => sortLabels r.labels))) db m db' m' h
    apply hk (sortLabels r.labels)
    · rw [mem_firstDedup]
      exact List.mem_map_of_mem _ hr
    · rw [mem_sortLabels]
      exact hl
  · intro db' ds h r hr
    have hok : (_batch_create_relationships db2 rrows).isOk = true := by
      rw [h]; rfl
    unfold _batch_create_relationships at hok
    have hv := (createRelGroups_isOk rrows
      (firstDedup (rrows.map (fun r => r.type))) db2 []).mp hok
    apply hv
    rw [mem_firstDedup]
    exact List.mem_map_of_mem _ hr

theorem C5_names_validated_witness :
    _safe_label "Person" = Except.ok "`Person`" :=
  (C5_names_validated "Person" ⟨[], [], 0⟩ ⟨[], [], 0⟩ [] [] []).1 (by decide)

/-- C6 (counterexample): the relationship copy does NOT abort when a fetched
relationship's recorded type disagrees with the type filter used to fetch it.
With the filter `["KNOWS"]` and a session whose page holds a row of recorded
type `"HATES"` (a driver inconsistency), the run completes successfully and
creates a `HATES` relationship instead of raising. -/
theorem C6_counterexample :
    _copy_relationships
        (fun _ skip _ => if skip = 0 then [⟨"HATES", "s1", "s2", []⟩] else [])
        ⟨[⟨"t0", ["X"], []⟩, ⟨"t1", ["X"], []⟩], [], 2⟩
        [("s1", "t0"), ("s2", "t1")] (some ["KNOWS"]) 10 3 =
      some (Except.ok (⟨[⟨"t0", ["X"], []⟩, ⟨"t1", ["X"], []⟩],
        [⟨"t2", "HATES", "t0", "t1", []⟩], 3⟩,
        [⟨"t2", "HATES", "t0", "t1"⟩])) ∧
    "HATES" ∉ (["KNOWS"] : List String) := by
  constructor
  · rfl
  · decide

/-- C6 (amended): `_batch_create_relationships` performs no type-consistency
check at all: it groups every row by the row's own recorded type and creates
it under that type (every created relationship and descriptor carries its
source row's recorded type — nothing is relabeled and nothing is compared
against the fetch filter), and the batch aborts exactly when some surviving
row's recorded type is not a bare identifier. -/
theorem C6_no_type_consistency_check (db : DB) (rows : List RelRow) :
    ((_batch_create_relationships db rows).isOk = true ↔
      ∀ r ∈ rows, isidentifier r.type = true) ∧
    (∀ db' ds, _batch_create_relationships db rows = Except.ok (db', ds) →
      (∀ d ∈ ds, ∃ row ∈ rows,
        d.type = row.type ∧ d.start_node = row.start ∧ d.end_node = row.end_) ∧
      (∀ t ∈ db'.rels, t ∈ db.rels ∨ ∃ row ∈ rows,
        t.type = row.type ∧ t.start = row.start ∧ t.end_ = row.end_)) := by
  constructor
  · unfold _batch_create_relationships
    rw [createRelGroups_isOk rows (firstDedup (rows.map (fun r => r.type))) db []]
    constructor
    · intro h r hr
      apply h
      rw [mem_firstDedup]
      exact List.mem_map_of_mem _ hr
    · intro h t ht
      rw [mem_firstDedup] at ht
      obtain ⟨r, hr, rfl⟩ := List.mem_map.mp ht
      exact h r hr
  · intro db' ds h
    unfold _batch_create_relationships at h
    obtain ⟨hdb, hds⟩ := createRelGroups_origin rows
      (firstDedup (rows.map (fun r => r.type))) db [] db' ds h
    refine ⟨fun d hd => ?_, hdb⟩
    rcases hds d hd with hin | hex
    · simp at hin
    · exact hex

theorem C6_no_type_consistency_check_witness :
    (_batch_create_relationships ⟨[⟨"t0", [], []⟩, ⟨"t1", [], []⟩], [], 2⟩
      [⟨"KNOWS", "t0", "t1", []⟩]).isOk = true :=
  (C6_no_type_consistency_check ⟨[⟨"t0", [], []⟩, ⟨"t1", [], []⟩], [], 2⟩
    [⟨"KNOWS", "t0", "t1", []⟩]).1.mpr (by decide)

/-- C3: after the node copy completes without engine-level failure (and with a
positive page size, over source nodes with distinct element ids), the number
of entries in the Identifier Map equals the number of source nodes matching
the label filter: each fetched node is grouped by its sorted label set,
created once on the target, and its (old id, new id) pairing inserted into
the map. -/
theorem C3_identifier_map_count (src : List NodeRow) (tgt : DB)
    (labels : Option (List String)) (page_size : Nat)
    (hnd : (src.map (fun r => r.eid)).Nodup) (hps : 1 ≤ page_size)
    (m : IdMap) (db : DB)
    (h : _copy_nodes src tgt labels page_size = some (Except.ok (m, db))) :
    m.length = (nodesMatching src labels).length := by
  unfold _copy_nodes at h
  have hndf : ((nodesMatching src labels).map (fun r => r.eid)).Nodup := by
    unfold nodesMatching
    by_cases ht : truthyList labels = true
    · rw [if_pos ht]
      exact hnd.sublist (List.Sublist.map _ (List.filter_sublist src))
    · rw [if_neg ht]
      exact hnd
  exact copyNodesLoop_length src labels page_size hps hndf (src.length + 1) 0 tgt []
    m db (by simp) (by simp [keyMem]) h

theorem C3_identifier_map_count_witness :
    ([("a", "t0")] : IdMap).length =
      (nodesMatching [⟨"a", ["P"], []⟩, ⟨"b", ["Q"], []⟩] (some ["P"])).length :=
  C3_identifier_map_count [⟨"a", ["P"], []⟩, ⟨"b", ["Q"], []⟩] ⟨[], [], 0⟩
    (some ["P"]) 1 (by decide) (by decide) [("a", "t0")]
    ⟨[⟨"t0", ["P"], []⟩], [], 1⟩ (by rfl)

/-- C7: `undo` deletes exactly the nodes whose property under
`spec.timestamp_key` is string-equal to the ISO rendering of
`spec.timestamp` (returning their count), detaching every relationship
attached to a deleted node; all other nodes and relationships are left in
place.  (`timestamp_key` is declared `str` in `models.py`, so a null value is
unconstructible and the claim's precondition always holds.) -/
theorem C7_undo_deletes_exactly_tagged (db : DB) (spec : TransferSpec) :
    ((undo db spec).2 = (db.nodes.filter (fun n =>
        decide (propGet n.props spec.timestamp_key = some spec.timestamp))).length) ∧
    (∀ n, n ∈ (undo db spec).1.nodes ↔
      (n ∈ db.nodes ∧ ¬ propGet n.props spec.timestamp_key = some spec.timestamp)) ∧
    (∀ r, r ∈ (undo db spec).1.rels ↔
      (r ∈ db.rels ∧
       r.start ∉ (db.nodes.filter (fun n =>
         decide (propGet n.props spec.timestamp_key = some spec.timestamp))).map
           (fun n => n.eid) ∧
       r.end_ ∉ (db.nodes.filter (fun n =>
         decide (propGet n.props spec.timestamp_key = some spec.timestamp))).map
           (fun n => n.eid))) := by
  refine ⟨rfl, ?_, ?_⟩
  · intro n
    unfold undo
    rw [List.mem_filter]
    simp
  · intro r
    unfold undo
    rw [List.mem_filter]
    simp

theorem C7_undo_deletes_exactly_tagged_witness :
    (undo ⟨[⟨"t0", ["P"], [("_transfer_timestamp", "2024-01-01T00:00:00")]⟩], [], 1⟩
        ⟨"_transfer_timestamp", "2024-01-01T00:00:00",
          LabelSpec.simple [], LabelSpec.simple []⟩).2 =
      (([⟨"t0", ["P"], [("_transfer_timestamp", "2024-01-01T00:00:00")]⟩] : List NodeRow).filter
        (fun n => decide (propGet n.props "_transfer_timestamp" =
          some "2024-01-01T00:00:00"))).length :=
  (C7_undo_deletes_exactly_tagged
    ⟨[⟨"t0", ["P"], [("_transfer_timestamp", "2024-01-01T00:00:00")]⟩], [], 1⟩
    ⟨"_transfer_timestamp", "2024-01-01T00:00:00",
      LabelSpec.simple [], LabelSpec.simple []⟩).1

/-- C8 (evaluation): `TransferSpec.__hash__` raises `TypeError` for every
constructible spec: `tuple(self.dict().items())` always contains the
`node_labels` item, whose value is a list or a dict — both unhashable. -/
theorem C8_hash_always_raises (s : TransferSpec) :
    ∃ e, transferSpecHash s = Except.error e := by
  cases hnl : s.node_labels with
  | simple ls =>
    refine ⟨"TypeError: unhashable type: 'list'", ?_⟩
    unfold transferSpecHash
    simp [TransferSpec.dictItems, pyHashItems, pyHash, hnl, labelSpecVal]
  | mapped kv =>
    refine ⟨"TypeError: unhashable type: 'dict'", ?_⟩
    unfold transferSpecHash
    simp [TransferSpec.dictItems, pyHashItems, pyHash, hnl, labelSpecVal]

theorem copyNodesLoop_empty_filter (src : List NodeRow) (ps : Nat) :
    ∀ (fuel skip : Nat) (db : DB) (m : IdMap),
      copyNodesLoop src (some []) ps fuel skip db m =
      copyNodesLoop src none ps fuel skip db m := by
  intro fuel
  induction fuel with
  | zero => intro skip db m; rfl
  | succ fuel ih =>
    intro skip db m
    rw [copyNodesLoop, copyNodesLoop]
    have hf : fetchNodes src (some []) skip ps = fetchNodes src none skip ps := rfl
    rw [hf]
    by_cases hb : (fetchNodes src none skip ps).isEmpty = true
    · rw [if_pos hb, if_pos hb]
    · rw [if_neg hb, if_neg hb]
      cases hbc : _batch_create_nodes db (fetchNodes src none skip ps) m with
      | error e => rfl
      | ok p =>
        obtain ⟨db1, m1⟩ := p
        show copyNodesLoop src (some []) ps fuel (skip + ps) db1 m1 =
          copyNodesLoop src none ps fuel (skip + ps) db1 m1
        exact ih (skip + ps) db1 m1

/-- C9: an empty list as label filter (resp. type filter) is falsy, exactly
like passing no filter: the unfiltered query is issued, the copy behaves
identically to the `None`-filter run, and the first full page fetches every
source node (resp. relationship) rather than zero records. -/
theorem C9_empty_filter_is_no_filter (src : List NodeRow) (rels : List RelRow)
    (skip limit ps fuel : Nat) (db : DB) (m : IdMap) :
    fetchNodes src (some []) skip limit = fetchNodes src none skip limit ∧
    fetchRels rels (some []) skip limit = fetchRels rels none skip limit ∧
    _copy_nodes src db (some []) ps = _copy_nodes src db none ps ∧
    _copy_relationships (relSessionOfDb rels) db m (some []) ps fuel =
      _copy_relationships (relSessionOfDb rels) db m none ps fuel ∧
    fetchNodes src none 0 src.length = src ∧
    fetchRels rels none 0 rels.length = rels := by
  refine ⟨rfl, rfl, ?_, ?_, ?_, ?_⟩
  · unfold _copy_nodes
    exact copyNodesLoop_empty_filter src ps (src.length + 1) 0 db []
  · rfl
  · unfold fetchNodes nodesMatching truthyList
    simp
  · unfold fetchRels relsMatching truthyList
    simp

/-- C10: every `UploadResult` that `transfer` returns or `transfer_generator`
yields has `was_successful = True` and `properties_set = 0`, with
`records_total = records_completed = nodes_created + relationships_created`;
a failure surfaces only as a raised error, never as a result with
`was_successful = False`. -/
theorem C10_results_always_successful (srcN : List NodeRow) (srcR : List RelRow)
    (tgt : DB) (cfg : TransferConfig) :
    (∀ db res, transfer srcN srcR tgt cfg = some (Except.ok (db, res)) →
      res.was_successful = true ∧ res.properties_set = 0 ∧
      res.records_completed = res.records_total ∧
      res.records_total = res.nodes_created + res.relationships_created) ∧
    (∀ ys fin, transfer_generator srcN srcR tgt cfg = some (ys, fin) →
      ∀ r ∈ ys, r.was_successful = true ∧ r.properties_set = 0 ∧
        r.records_completed = r.records_total ∧
        r.records_total = r.nodes_created + r.relationships_created) := by
  constructor
  · intro db res h
    unfold transfer at h
    dsimp only at h
    repeat' split at h
    all_goals
      first
      | (simp at h; done)
      | (simp only [Option.some.injEq, Except.ok.injEq, Prod.mk.injEq] at h
         obtain ⟨-, hres⟩ := h
         subst hres
         exact ⟨rfl, rfl, rfl, rfl⟩)
  · intro ys fin h
    unfold transfer_generator at h
    dsimp only at h
    repeat' split at h
    all_goals
      first
      | (simp at h; done)
      | (simp only [Option.some.injEq, Prod.mk.injEq] at h
         obtain ⟨hys, -⟩ := h
         subst hys
         intro r hr
         fin_cases hr <;> exact ⟨rfl, rfl, rfl, by simp⟩)

theorem C10_results_always_successful_witness :
    (⟨0, 0, true, 0, 0, 0⟩ : UploadResult).was_successful = true ∧
    (⟨0, 0, true, 0, 0, 0⟩ : UploadResult).properties_set = 0 ∧
    (⟨0, 0, true, 0, 0, 0⟩ : UploadResult).records_completed =
      (⟨0, 0, true, 0, 0, 0⟩ : UploadResult).records_total ∧
    (⟨0, 0, true, 0, 0, 0⟩ : UploadResult).records_total =
      (⟨0, 0, true, 0, 0, 0⟩ : UploadResult).nodes_created +
      (⟨0, 0, true, 0, 0, 0⟩ : UploadResult).relationships_created :=
  (C10_results_always_successful [] [] ⟨[], [], 0⟩
    ⟨⟨"_transfer_timestamp", "2024-01-01T00:00:00",
      LabelSpec.simple [], LabelSpec.simple []⟩, 50000, false⟩).1
    ⟨[], [], 0⟩ ⟨0, 0, true, 0, 0, 0⟩ (by rfl)

/-- C1 (evaluation): a transfer with tagging nominally enabled
(`timestamp_key = "_transfer_timestamp"`) into an empty target copies the
node's property bag unchanged — no timestamp property is ever written — and
the subsequent `undo` with the same spec matches nothing: it deletes 0 nodes
and the copied record remains in the target. -/
theorem C1_transfer_never_tags_eval :
    transfer [⟨"a", ["Person"], []⟩] [] ⟨[], [], 0⟩
        ⟨⟨"_transfer_timestamp", "2024-01-01T00:00:00",
          LabelSpec.simple ["Person"], LabelSpec.simple []⟩, 50000, false⟩ =
      some (Except.ok (⟨[⟨"t0", ["Person"], []⟩], [], 1⟩,
        ⟨1, 1, true, 1, 0, 0⟩)) ∧
    propGet ([] : List (String × String)) "_transfer_timestamp" = none ∧
    undo ⟨[⟨"t0", ["Person"], []⟩], [], 1⟩
        ⟨"_transfer_timestamp", "2024-01-01T00:00:00",
          LabelSpec.simple ["Person"], LabelSpec.simple []⟩ =
      (⟨[⟨"t0", ["Person"], []⟩], [], 1⟩, 0) :=
  ⟨rfl, rfl, rfl⟩

/-- C2 (evaluation): with page size 1, a source holding two relationships of
the matching type — the first with an unmapped endpoint, the second with both
endpoints in the Identifier Map — the relationship loop breaks after the
first page (its surviving batch is empty) and creates nothing, even though
the second relationship matches the filter and both its endpoints resolve
through the map. -/
theorem C2_rel_loop_breaks_early_eval :
    copyRelationshipsDb [⟨"K", "a", "z", []⟩, ⟨"K", "b", "c", []⟩]
        ⟨[⟨"t0", ["X"], []⟩, ⟨"t1", ["X"], []⟩], [], 2⟩
        [("b", "t0"), ("c", "t1")] (some ["K"]) 1 =
      some (Except.ok (⟨[⟨"t0", ["X"], []⟩, ⟨"t1", ["X"], []⟩], [], 2⟩, [])) ∧
    dictGet [("b", "t0"), ("c", "t1")] "b" = some "t0" ∧
    dictGet [("b", "t0"), ("c", "t1")] "c" = some "t1" ∧
    relsMatching [⟨"K", "a", "z", []⟩, ⟨"K", "b", "c", []⟩] (some ["K"]) =
      [⟨"K", "a", "z", []⟩, ⟨"K", "b", "c", []⟩] :=
  ⟨rfl, rfl, rfl, rfl⟩
